import Mathlib

/-
Verification development for the jovey backend's Database Manager
(event-to-state translation) subsystem.

Shallow embedding of:
  src/backend/app/functions/database_manager/event_processor.py
  src/backend/app/functions/database_manager/services.py
  src/backend/app/functions/database_manager/models.py
  src/backend/app/functions/events/services.py   (the queries used by the manager)
  src/backend/app/functions/events/models.py     (the creation-time validators)

Modelling conventions:
  - UUIDs are modelled as Nat (only equality is used on them);
    aggregate_id is modelled as String because handlers interpolate it
    into operation strings.
  - Timestamps and wall-clock durations are external inputs: callers pass
    a `now` value (stored into processed_at) and elapsed-millisecond
    values (stored into processing_time_ms).  The code reads them from
    datetime.utcnow() / time.time().
  - The events table is a Store: a list of Event rows plus a persistOk
    flag modelling whether status-update writes reach the table.  The
    tracker methods swallow persistence exceptions, which the embedding
    renders as: when persistOk is false the write silently does nothing.
  - JSON payload values are PyVal; Python str() of a missing dict.get key
    renders as "None", mirrored by fmtGet.
  - Python handler methods are resolved by getattr on the name
    "_handle_" + event_type.replace('.', '_'); the embedding mangles the
    event type the same way and looks it up in an explicit match.
  - Handlers may in principle raise (Python exceptions), so a handler is
    a function Event → Except String (List String); every handler the
    class actually defines only logs and returns its operation list, so
    the default registry always returns Except.ok.  logger.* calls are
    I/O only and are omitted.
-/

namespace Jovey

/-- PyVal models a JSON payload value stored in an event's data map. -/
inductive PyVal where
  | vstr : String → PyVal
  | vint : Int → PyVal
  | vnone : PyVal
deriving DecidableEq

/-- Python str() rendering of a payload value, as used in f-strings. -/
def pyStr : PyVal → String
  | .vstr s => s
  | .vint n => toString n
  | .vnone => "None"

/-- Lookup in a Python dict modelled as an association list. -/
def dictGet (d : List (String × PyVal)) (k : String) : Option PyVal :=
  (d.find? (fun p => p.fst == k)).map Prod.snd

/-- Rendering of event.data.get(k) inside an f-string: a missing key is
Python None and prints as "None". -/
def fmtGet (d : List (String × PyVal)) (k : String) : String :=
  match dictGet d k with
  | some v => pyStr v
  | none => "None"

/-- Event models one row of the events table (EventResponse in
events/models.py), restricted to the fields the Database Manager reads
or writes. -/
structure Event where
  id : Nat
  event_number : Nat
  event_type : String
  aggregate_type : String
  aggregate_id : String
  data : List (String × PyVal)
  created_by : String
  is_processed : Bool
  processed_at : Option Nat
  processing_error : Option String
deriving DecidableEq

/-- Store models the events table plus a persistOk flag standing for
whether status-update writes succeed (the tracker swallows their
exceptions, so a failed write is simply a lost update). -/
structure Store where
  events : List Event
  persistOk : Bool
deriving DecidableEq

/-- EventProcessingResult from database_manager/models.py. -/
structure EventProcessingResult where
  event_id : Nat
  event_type : String
  success : Bool
  error : Option String
  operations_executed : List String
  processing_time_ms : Nat
deriving DecidableEq

/-- BatchProcessingResult from database_manager/models.py. -/
structure BatchProcessingResult where
  total_events : Nat
  successful : Nat
  failed : Nat
  processing_time_ms : Nat
  results : List EventProcessingResult
deriving DecidableEq

/-- Python's event_type.replace('.', '_') on one character. -/
def mangleChar (c : Char) : Char := if c = '.' then '_' else c

/-- Python's event_type.replace('.', '_'), used to build the handler
method name "_handle_" ++ mangle event_type in process_event. -/
def mangle (s : String) : String := String.mk (s.toList.map mangleChar)

/-- Handler body of EventProcessor._handle_product_created: one
operation string built from data.get('sku'). -/
def handle_product_created (e : Event) : List String :=
  ["Logged product creation: " ++ fmtGet e.data "sku"]

/-- Handler body of EventProcessor._handle_product_updated. -/
def handle_product_updated (e : Event) : List String :=
  ["Logged product update: " ++ e.aggregate_id]

/-- Handler body of EventProcessor._handle_product_price_changed. -/
def handle_product_price_changed (e : Event) : List String :=
  ["Logged price change: " ++ e.aggregate_id]

/-- Handler body of EventProcessor._handle_product_stock_updated. -/
def handle_product_stock_updated (e : Event) : List String :=
  ["Logged stock update: " ++ e.aggregate_id]

/-- Handler body of EventProcessor._handle_product_deactivated. -/
def handle_product_deactivated (e : Event) : List String :=
  ["Logged product deactivation: " ++ e.aggregate_id]

/-- Handler body of EventProcessor._handle_order_created. -/
def handle_order_created (e : Event) : List String :=
  ["Logged order creation: " ++ e.aggregate_id]

/-- Handler body of EventProcessor._handle_order_payment_received. -/
def handle_order_payment_received (e : Event) : List String :=
  ["Logged payment: " ++ e.aggregate_id]

/-- Handler body of EventProcessor._handle_order_status_changed. -/
def handle_order_status_changed (e : Event) : List String :=
  ["Logged status change: " ++ e.aggregate_id]

/-- Handler body of EventProcessor._handle_order_fulfilled. -/
def handle_order_fulfilled (e : Event) : List String :=
  ["Logged order fulfillment: " ++ e.aggregate_id]

/-- Handler body of EventProcessor._handle_order_cancelled. -/
def handle_order_cancelled (e : Event) : List String :=
  ["Logged order cancellation: " ++ e.aggregate_id]

/-- Handler body of EventProcessor._handle_customer_registered. -/
def handle_customer_registered (e : Event) : List String :=
  ["Logged customer registration: " ++ e.aggregate_id]

/-- Handler body of EventProcessor._handle_customer_profile_updated. -/
def handle_customer_profile_updated (e : Event) : List String :=
  ["Logged profile update: " ++ e.aggregate_id]

/-- Handler body of EventProcessor._handle_dealer_application_submitted. -/
def handle_dealer_application_submitted (e : Event) : List String :=
  ["Logged dealer application: " ++ e.aggregate_id]

/-- Handler body of EventProcessor._handle_dealer_approved. -/
def handle_dealer_approved (e : Event) : List String :=
  ["Logged dealer approval: " ++ e.aggregate_id]

/-- Handler body of EventProcessor._handle_dealer_pricing_updated. -/
def handle_dealer_pricing_updated (e : Event) : List String :=
  ["Logged pricing update: " ++ e.aggregate_id]

/-- Handler body of EventProcessor._handle_agent_decision_proposed. -/
def handle_agent_decision_proposed (e : Event) : List String :=
  ["Logged agent decision: " ++ e.aggregate_id]

/-- Handler body of EventProcessor._handle_agent_decision_approved. -/
def handle_agent_decision_approved (e : Event) : List String :=
  ["Logged decision approval: " ++ e.aggregate_id]

/-- Handler body of EventProcessor._handle_agent_decision_rejected. -/
def handle_agent_decision_rejected (e : Event) : List String :=
  ["Logged decision rejection: " ++ e.aggregate_id]

/-- Handler is the type of a resolved handler method: a handler may in
principle raise (error case) or return its operation-description list. -/
abbrev Handler : Type := Event → Except String (List String)

/-- Registry is the type of the handler-resolution step of
process_event (getattr on the mangled method name, None if absent). -/
abbrev Registry : Type := String → Option Handler

/-- defaultHandlers models the method set of EventProcessor as resolved
by getattr(self, "_handle_" + event_type.replace('.', '_'), None).  All
methods the class defines return normally. -/
def defaultHandlers : Registry := fun et =>
  match mangle et with
  | "product_created" => some (fun e => .ok (handle_product_created e))
  | "product_updated" => some (fun e => .ok (handle_product_updated e))
  | "product_price_changed" => some (fun e => .ok (handle_product_price_changed e))
  | "product_stock_updated" => some (fun e => .ok (handle_product_stock_updated e))
  | "product_deactivated" => some (fun e => .ok (handle_product_deactivated e))
  | "order_created" => some (fun e => .ok (handle_order_created e))
  | "order_payment_received" => some (fun e => .ok (handle_order_payment_received e))
  | "order_status_changed" => some (fun e => .ok (handle_order_status_changed e))
  | "order_fulfilled" => some (fun e => .ok (handle_order_fulfilled e))
  | "order_cancelled" => some (fun e => .ok (handle_order_cancelled e))
  | "customer_registered" => some (fun e => .ok (handle_customer_registered e))
  | "customer_profile_updated" => some (fun e => .ok (handle_customer_profile_updated e))
  | "dealer_application_submitted" => some (fun e => .ok (handle_dealer_application_submitted e))
  | "dealer_approved" => some (fun e => .ok (handle_dealer_approved e))
  | "dealer_pricing_updated" => some (fun e => .ok (handle_dealer_pricing_updated e))
  | "agent_decision_proposed" => some (fun e => .ok (handle_agent_decision_proposed e))
  | "agent_decision_approved" => some (fun e => .ok (handle_agent_decision_approved e))
  | "agent_decision_rejected" => some (fun e => .ok (handle_agent_decision_rejected e))
  | _ => none

/-- mark_event_processed (EventProcessor._mark_event_processed): updates
the matching row to is_processed=true, processed_at=now,
processing_error=null; a persistence failure is swallowed (the store is
simply left unchanged). -/
def mark_event_processed (st : Store) (eid : Nat) (now : Nat) : Store :=
  if st.persistOk then
    { st with events := st.events.map (fun e =>
        if e.id = eid then
          { e with is_processed := true, processed_at := some now, processing_error := none }
        else e) }
  else st

/-- mark_event_error (EventProcessor._mark_event_error): updates the
matching row to is_processed=false, processing_error=error, leaving
processed_at untouched; a persistence failure is swallowed. -/
def mark_event_error (st : Store) (eid : Nat) (err : String) : Store :=
  if st.persistOk then
    { st with events := st.events.map (fun e =>
        if e.id = eid then
          { e with is_processed := false, processing_error := some err }
        else e) }
  else st

/-- process_event (EventProcessor.process_event) over an arbitrary
registry: resolve the handler; if none, return a non-throwing failure
result with no status write; on handler success record the returned
operations and elapsed time and mark the event processed; on handler
exception capture the message, mark the event with the error, and
return a failure result.  elapsedMs is the wall-clock oracle for
(time.time() - start_time) * 1000. -/
def processEventWith (H : Registry) (now elapsedMs : Nat) (ev : Event)
    (st : Store) : EventProcessingResult × Store :=
  match H ev.event_type with
  | none =>
      (⟨ev.id, ev.event_type, false,
        some ("No handler for event type: " ++ ev.event_type), [], elapsedMs⟩, st)
  | some h =>
      match h ev with
      | .ok ops =>
          (⟨ev.id, ev.event_type, true, none, ops, elapsedMs⟩,
           mark_event_processed st ev.id now)
      | .error msg =>
          (⟨ev.id, ev.event_type, false, some msg, [], elapsedMs⟩,
           mark_event_error st ev.id msg)

/-- process_event with the registry the EventProcessor class actually
defines. -/
def process_event (now elapsedMs : Nat) (ev : Event) (st : Store) :
    EventProcessingResult × Store :=
  processEventWith defaultHandlers now elapsedMs ev st

/-- Insertion step of the ascending order("event_number", desc=False)
clause applied by the store to the unprocessed-events query. -/
def insertAscByNumber (e : Event) : List Event → List Event
  | [] => [e]
  | x :: xs =>
    if e.event_number ≤ x.event_number then e :: x :: xs
    else x :: insertAscByNumber e xs

/-- Ascending sort by event_number, modelling the store's ORDER BY
event_number ASC. -/
def sortAscByNumber : List Event → List Event
  | [] => []
  | x :: xs => insertAscByNumber x (sortAscByNumber xs)

/-- Insertion step of the descending order("event_number", desc=True)
clause used by get_events. -/
def insertDescByNumber (e : Event) : List Event → List Event
  | [] => [e]
  | x :: xs =>
    if x.event_number ≤ e.event_number then e :: x :: xs
    else x :: insertDescByNumber e xs

/-- Descending sort by event_number, modelling the store's ORDER BY
event_number DESC. -/
def sortDescByNumber : List Event → List Event
  | [] => []
  | x :: xs => insertDescByNumber x (sortDescByNumber xs)

/-- get_unprocessed_events (EventService.get_unprocessed_events): rows
with is_processed = false, ordered ascending by event_number, limited. -/
def get_unprocessed_events (st : Store) (limit : Nat) : List Event :=
  (sortAscByNumber (st.events.filter (fun e => !e.is_processed))).take limit

/-- LoopOut is the accumulator of the per-event loop of the batch
entry points: results list, success count, failure count, store. -/
structure LoopOut where
  results : List EventProcessingResult
  successful : Nat
  failed : Nat
  store : Store
deriving DecidableEq

/-- Per-event loop of DatabaseManagerService.process_pending_events:
dispatch each fetched event in order, appending its result and bumping
the matching counter.  (The Python code accumulates left-to-right; the
recursion here prepends head contributions, which yields the same
results list and the same counts.) -/
def runBatchLoop (H : Registry) (now elapsedMs : Nat) :
    List Event → Store → LoopOut
  | [], st => ⟨[], 0, 0, st⟩
  | e :: rest, st =>
    let pr := processEventWith H now elapsedMs e st
    let out := runBatchLoop H now elapsedMs rest pr.2
    ⟨pr.1 :: out.results,
     (if pr.1.success then 1 else 0) + out.successful,
     (if pr.1.success then 0 else 1) + out.failed,
     out.store⟩

/-- process_pending_events (DatabaseManagerService.process_pending_events):
fetch up to limit unprocessed events oldest-first; if none, return the
zero result immediately; otherwise run the dispatcher over each in
order and report totals.  batchMs is the wall-clock oracle for the
batch-level processing_time_ms. -/
def process_pending_events (H : Registry) (now elapsedMs batchMs : Nat)
    (limit : Nat) (st : Store) : BatchProcessingResult × Store :=
  let events := get_unprocessed_events st limit
  if events.isEmpty then
    (⟨0, 0, 0, 0, []⟩, st)
  else
    let out := runBatchLoop H now elapsedMs events st
    (⟨events.length, out.successful, out.failed, batchMs, out.results⟩, out.store)

/-- get_event_by_id (EventService.get_event_by_id): single-row lookup;
none models the 404 HTTPException path. -/
def get_event_by_id (st : Store) (eid : Nat) : Option Event :=
  st.events.find? (fun e => e.id = eid)

/-- Per-id loop of DatabaseManagerService.process_specific_events: a
failed lookup becomes a failure result with event_type "unknown" (the
str() of the 404 HTTPException as the error); an already-processed
event with force_reprocess false is skipped via continue; otherwise the
event is dispatched and counted. -/
def processSpecificLoop (H : Registry) (now elapsedMs : Nat)
    (force : Bool) : List Nat → Store → LoopOut
  | [], st => ⟨[], 0, 0, st⟩
  | eid :: rest, st =>
    match get_event_by_id st eid with
    | none =>
      let r : EventProcessingResult :=
        ⟨eid, "unknown", false,
         some ("404: Event " ++ toString eid ++ " not found"), [], 0⟩
      let out := processSpecificLoop H now elapsedMs force rest st
      ⟨r :: out.results, out.successful, 1 + out.failed, out.store⟩
    | some ev =>
      if ev.is_processed && !force then
        processSpecificLoop H now elapsedMs force rest st
      else
        let pr := processEventWith H now elapsedMs ev st
        let out := processSpecificLoop H now elapsedMs force rest pr.2
        ⟨pr.1 :: out.results,
         (if pr.1.success then 1 else 0) + out.successful,
         (if pr.1.success then 0 else 1) + out.failed,
         out.store⟩

/-- process_specific_events (DatabaseManagerService.process_specific_events):
run the per-id loop and report total_events = len(event_ids). -/
def process_specific_events (H : Registry) (now elapsedMs batchMs : Nat)
    (event_ids : List Nat) (force_reprocess : Bool) (st : Store) :
    BatchProcessingResult × Store :=
  let out := processSpecificLoop H now elapsedMs force_reprocess event_ids st
  (⟨event_ids.length, out.successful, out.failed, batchMs, out.results⟩, out.store)

/-- Python str.split('.') over the character list of the string. -/
def splitOnDot : List Char → List (List Char)
  | [] => [[]]
  | c :: rest =>
    match splitOnDot rest with
    | [] => [[]]
    | g :: gs => if c = '.' then [] :: g :: gs else (c :: g) :: gs

/-- Python str.lower (ASCII-faithful), used by the event_type and
aggregate_type validators. -/
def lowerString (s : String) : String := String.mk (s.toList.map Char.toLower)

/-- validate_event_type (EventCreate.validate_event_type): reject when
no dot is present, when splitting on '.' gives other than two parts, or
when a part is empty; otherwise return the lowercased value. -/
def validate_event_type (v : String) : Except String String :=
  if !(v.toList.contains '.') then
    .error "event_type must follow format: aggregate.action (e.g., product.created)"
  else
    let parts := splitOnDot v.toList
    if parts.length ≠ 2 then
      .error "event_type must have exactly one dot (aggregate.action)"
    else if !(parts.all (fun p => !p.isEmpty)) then
      .error "event_type parts cannot be empty"
    else
      .ok (lowerString v)

/-- accept_event_type: full pydantic acceptance for the event_type
field — the Field(min_length=3, max_length=100) constraints run before
the field validator. -/
def accept_event_type (v : String) : Except String String :=
  if v.length < 3 then .error "string_too_short"
  else if 100 < v.length then .error "string_too_long"
  else validate_event_type v

/-- Python str.startswith of a literal prefix, over character lists. -/
def startsWithChars : List Char → List Char → Bool
  | [], _ => true
  | _ :: _, [] => false
  | p :: ps, c :: cs => p == c && startsWithChars ps cs

/-- Python v.startswith(('user:', 'agent:', 'system')) as used by
EventCreate.validate_created_by. -/
def createdByPrefixOk (v : String) : Bool :=
  startsWithChars "user:".toList v.toList ||
  startsWithChars "agent:".toList v.toList ||
  startsWithChars "system".toList v.toList

/-- validate_created_by (EventCreate.validate_created_by): reject unless
the value starts with user:, agent:, or system. -/
def validate_created_by (v : String) : Except String String :=
  if !(createdByPrefixOk v) then
    .error "created_by must start with user:, agent:, or system"
  else
    .ok v

/-- accept_created_by: full pydantic acceptance for the created_by
field — Field(min_length=1, max_length=100) runs before the validator. -/
def accept_created_by (v : String) : Except String String :=
  if v.length < 1 then .error "string_too_short"
  else if 100 < v.length then .error "string_too_long"
  else validate_created_by v

/-- One step of the event_type_counts dict loop in
EventService.get_event_stats: bump an existing key in place or append a
new key with count 1 (Python dict update semantics). -/
def bumpCount (t : String) : List (String × Nat) → List (String × Nat)
  | [] => [(t, 1)]
  | (k, n) :: rest =>
    if k = t then (k, n + 1) :: rest else (k, n) :: bumpCount t rest

/-- The event_type_counts dict built by get_event_stats over all rows. -/
def buildTypeCounts (l : List Event) : List (String × Nat) :=
  l.foldl (fun acc e => bumpCount e.event_type acc) []

/-- Dict lookup with default 0 over the association list. -/
def lookupCount (acc : List (String × Nat)) (t : String) : Nat :=
  match acc.find? (fun p => p.fst = t) with
  | some p => p.snd
  | none => 0

/-- EventStats models the dict returned by EventService.get_event_stats
(the aggregate_types entry is unused by the Database Manager and is
omitted). -/
structure EventStats where
  total_events : Nat
  unprocessed_events : Nat
  processed_events : Nat
  event_types : List (String × Nat)
deriving DecidableEq

/-- get_event_stats (EventService.get_event_stats): exact counts of all
rows and of unprocessed rows, processed = total - unprocessed, and the
per-type breakdown dict. -/
def get_event_stats (st : Store) : EventStats :=
  let total := st.events.length
  let unproc := st.events.countP (fun e => !e.is_processed)
  { total_events := total
    unprocessed_events := unproc
    processed_events := total - unproc
    event_types := buildTypeCounts st.events }

/-- DatabaseManagerStats from database_manager/models.py.  success_rate
is Python float division, modelled exactly over the rationals. -/
structure DatabaseManagerStats where
  total_events_processed : Nat
  events_pending : Nat
  events_failed : Nat
  success_rate : ℚ
  average_processing_time_ms : ℚ
  last_processed_at : Option Nat
  event_type_breakdown : List (String × Nat)
deriving DecidableEq

/-- get_stats (DatabaseManagerService.get_stats): assemble the stats
from get_event_stats; success_rate is processed/total*100 (0 when the
store is empty); last_processed_at comes from get_events with
is_processed=True, limit=1, ordered newest-first; events_failed and
average_processing_time_ms are the literal constants the code returns. -/
def get_stats (st : Store) : DatabaseManagerStats :=
  let event_stats := get_event_stats st
  let success_rate : ℚ :=
    if 0 < event_stats.total_events then
      (event_stats.processed_events : ℚ) / (event_stats.total_events : ℚ) * 100
    else 0
  let recent_processed :=
    (sortDescByNumber (st.events.filter (fun e => e.is_processed))).take 1
  let last_processed_at :=
    match recent_processed.head? with
    | some e => e.processed_at
    | none => none
  { total_events_processed := event_stats.processed_events
    events_pending := event_stats.unprocessed_events
    events_failed := 0
    success_rate := success_rate
    average_processing_time_ms := 0
    last_processed_at := last_processed_at
    event_type_breakdown := event_stats.event_types }

/-- Boolean success test for an Except result (Python: no exception was
raised by the validator stack). -/
def exceptOk {α β : Type} : Except α β → Bool
  | .ok _ => true
  | .error _ => false

deriving instance DecidableEq for Except

/-- Spec-side acceptance condition for event_type, transcribed from the
specification sentence: the string contains exactly one dot and the two
parts it separates are non-empty. -/
def specEventTypeOk (v : String) : Bool :=
  (v.toList.count '.' == 1) && ((splitOnDot v.toList).all (fun p => !p.isEmpty))

/-- Spec-side count of failed events: events that are unprocessed and
carry a processing_error, the specification's notion of a failed event
for the stats endpoint. -/
def specFailedEventCount (st : Store) : Nat :=
  st.events.countP (fun e => !e.is_processed && e.processing_error.isSome)

/-- Fixture: the product.created event of the specification scenario,
with data sku = PUMP-001. -/
def evPump : Event :=
  ⟨1, 1, "product.created", "product", "p-1", [("sku", PyVal.vstr "PUMP-001")],
   "system", false, none, none⟩

/-- Fixture: a store holding only evPump, with working persistence. -/
def stPump : Store := ⟨[evPump], true⟩

/-- Fixture: an event of a type with no registered handler. -/
def evWidget : Event :=
  ⟨2, 1, "widget.sparkled", "widget", "w-1", [], "system", false, none, none⟩

/-- Fixture: a store holding only evWidget. -/
def stWidget : Store := ⟨[evWidget], true⟩

/-- Fixture: an event whose (hypothetical) handler raises. -/
def evBoom : Event :=
  ⟨3, 1, "boom.bang", "boom", "b-1", [], "system", false, none, none⟩

/-- Fixture: a store holding only evBoom. -/
def stBoom : Store := ⟨[evBoom], true⟩

/-- Fixture: a registry whose boom.bang handler raises with message
kaboom, exercising the exception path of process_event. -/
def raisingRegistry : Registry := fun et =>
  if et = "boom.bang" then some (fun _ => Except.error "kaboom") else none

/-- Fixture: event with sequence number 2 on aggregate p-9, stored
ahead of its predecessor in table order. -/
def evSeq2 : Event :=
  ⟨11, 2, "product.updated", "product", "p-9", [], "system", false, none, none⟩

/-- Fixture: event with sequence number 1 on the same aggregate p-9. -/
def evSeq1 : Event :=
  ⟨12, 1, "product.created", "product", "p-9", [("sku", PyVal.vstr "PUMP-002")],
   "system", false, none, none⟩

/-- Fixture: store listing the seq-2 event before the seq-1 event, so
the fetch ordering is observable. -/
def stTwo : Store := ⟨[evSeq2, evSeq1], true⟩

/-- Fixture: an already-processed event. -/
def evDone : Event :=
  ⟨7, 5, "product.created", "product", "p-7", [], "system", true, some 500, none⟩

/-- Fixture: a store holding only the already-processed evDone. -/
def stDone : Store := ⟨[evDone], true⟩

/-- Fixture: a store holding one failed event (unprocessed with a
stored processing_error). -/
def stFailed : Store :=
  ⟨[⟨21, 3, "product.created", "product", "p-21", [], "system", false, none,
     some "boom"⟩], true⟩

/-- Fixture: a 101-character event_type with exactly one dot and two
non-empty parts. -/
def longDotted : String := "a." ++ String.mk (List.replicate 99 'b')

/-
Theorems.
-/

/-- Helper: the result of process_event carries the event's id in every
branch. -/
theorem processEventWith_event_id (H : Registry) (now elapsedMs : Nat)
    (ev : Event) (st : Store) :
    (processEventWith H now elapsedMs ev st).1.event_id = ev.id := by
  cases hH : H ev.event_type with
  | none => simp [processEventWith, hH]
  | some h => cases hh : h ev <;> simp [processEventWith, hH, hh]

/-- Helper: a successful process_event result means the handler-success
branch ran, so the store step was mark_event_processed. -/
theorem processEventWith_success_store (H : Registry) (now elapsedMs : Nat)
    (ev : Event) (st : Store)
    (hs : (processEventWith H now elapsedMs ev st).1.success = true) :
    (processEventWith H now elapsedMs ev st).2 =
      mark_event_processed st ev.id now := by
  cases hH : H ev.event_type with
  | none => simp [processEventWith, hH] at hs
  | some h =>
    cases hh : h ev with
    | ok ops => simp [processEventWith, hH, hh]
    | error m => simp [processEventWith, hH, hh] at hs

/-- Helper: the status-tracker writes do not change the persistOk flag. -/
theorem mark_event_processed_persist (st : Store) (eid now : Nat) :
    (mark_event_processed st eid now).persistOk = st.persistOk := by
  unfold mark_event_processed
  by_cases hp : st.persistOk <;> simp [hp]

/-- Helper: with working persistence, mark_event_processed is a
pointwise row update. -/
theorem mark_event_processed_events (st : Store) (eid now : Nat)
    (hp : st.persistOk = true) :
    (mark_event_processed st eid now).events =
      st.events.map (fun e =>
        if e.id = eid then
          { e with is_processed := true, processed_at := some now,
                   processing_error := none }
        else e) := by
  simp [mark_event_processed, hp]

/-- Helper: with working persistence, mark_event_error is a pointwise
row update. -/
theorem mark_event_error_events (st : Store) (eid : Nat) (err : String)
    (hp : st.persistOk = true) :
    (mark_event_error st eid err).events =
      st.events.map (fun e =>
        if e.id = eid then
          { e with is_processed := false, processing_error := some err }
        else e) := by
  simp [mark_event_error, hp]

/-- C1: for every event whose event_type has a registered handler that
returns normally, process_event returns a success result carrying the
handler's operation descriptions and the elapsed time, and marks the
event processed via the status tracker. -/
theorem c1_handler_success (now elapsedMs : Nat) (ev : Event) (st : Store)
    (h : Handler) (ops : List String)
    (hH : defaultHandlers ev.event_type = some h)
    (hok : h ev = Except.ok ops) :
    process_event now elapsedMs ev st =
      (⟨ev.id, ev.event_type, true, none, ops, elapsedMs⟩,
       mark_event_processed st ev.id now) := by
  simp only [process_event, processEventWith, hH, hok]

/-- C1 witness: the specification scenario — processing the
product.created event with data sku = PUMP-001 yields success = true
with operations_executed = ["Logged product creation: PUMP-001"], and
the stored event's is_processed becomes true. -/
theorem c1_handler_success_witness :
    process_event 1000 5 evPump stPump =
      (⟨1, "product.created", true, none,
        ["Logged product creation: PUMP-001"], 5⟩,
       ⟨[⟨1, 1, "product.created", "product", "p-1",
          [("sku", PyVal.vstr "PUMP-001")], "system", true, some 1000, none⟩],
        true⟩) ∧
    ((process_event 1000 5 evPump stPump).2.events.all
      (fun e => e.is_processed)) = true := by
  have h := c1_handler_success 1000 5 evPump stPump
      (fun e => Except.ok (handle_product_created e))
      (handle_product_created evPump) rfl rfl
  refine ⟨?_, ?_⟩
  · rw [h]; decide
  · rw [h]; decide

/-- C2 counterexample: on the unhandled type widget.sparkled the stored
error string is capitalized ("No handler for event type: ..."), so it
is not equal to the lowercase string the claim asserts. -/
theorem c2_counterexample :
    (process_event 1000 5 evWidget stWidget).1.error =
      some "No handler for event type: widget.sparkled" ∧
    ¬((process_event 1000 5 evWidget stWidget).1.error =
      some "no handler for event type: widget.sparkled") := by
  constructor
  · decide
  · decide

/-- C2 (amended): for every event whose event_type matches no registered
handler, process_event does not raise and returns a failure result with
success = false, empty operations_executed, and error equal to
"No handler for event type: <type>" (capital N); it performs no status
write, returning the store unchanged. -/
theorem c2_no_handler (now elapsedMs : Nat) (ev : Event) (st : Store)
    (hH : defaultHandlers ev.event_type = none) :
    process_event now elapsedMs ev st =
      (⟨ev.id, ev.event_type, false,
        some ("No handler for event type: " ++ ev.event_type), [],
        elapsedMs⟩, st) := by
  simp only [process_event, processEventWith, hH]

/-- C2 witness: the widget.sparkled event is reported as a failure with
the capitalized no-handler error and the store is left untouched. -/
theorem c2_no_handler_witness :
    process_event 1000 5 evWidget stWidget =
      (⟨2, "widget.sparkled", false,
        some "No handler for event type: widget.sparkled", [], 5⟩,
       stWidget) := by
  have h := c2_no_handler 1000 5 evWidget stWidget rfl
  rw [h]; decide

/-- C3: for every event whose handler raises, process_event catches the
exception, returns a failure result whose error is the exception
message, and writes is_processed = false with that error text onto the
event (overwriting any previous processing_error); the exception never
propagates. -/
theorem c3_handler_exception (H : Registry) (now elapsedMs : Nat)
    (ev : Event) (st : Store) (h : Handler) (msg : String)
    (hH : H ev.event_type = some h) (herr : h ev = Except.error msg) :
    processEventWith H now elapsedMs ev st =
      (⟨ev.id, ev.event_type, false, some msg, [], elapsedMs⟩,
       mark_event_error st ev.id msg) ∧
    (st.persistOk = true → ∀ e ∈ st.events, e.id = ev.id →
      { e with is_processed := false, processing_error := some msg } ∈
        (mark_event_error st ev.id msg).events) := by
  constructor
  · simp only [processEventWith, hH, herr]
  · intro hp e he hid
    rw [mark_event_error_events st ev.id msg hp]
    refine List.mem_map.mpr ⟨e, he, ?_⟩
    rw [if_pos hid]

/-- C3 witness: a registry whose boom.bang handler raises with message
kaboom yields the failure result and the event stored with
is_processed = false and processing_error = kaboom. -/
theorem c3_handler_exception_witness :
    processEventWith raisingRegistry 1000 5 evBoom stBoom =
      (⟨3, "boom.bang", false, some "kaboom", [], 5⟩,
       ⟨[⟨3, 1, "boom.bang", "boom", "b-1", [], "system", false, none,
          some "kaboom"⟩], true⟩) := by
  have h := c3_handler_exception raisingRegistry 1000 5 evBoom stBoom
      (fun _ => Except.error "kaboom") "kaboom" rfl rfl
  rw [h.1]; decide

/-- C5: in process_specific_events with force_reprocess = false, an id
whose loaded event is already processed is skipped: the loop step over
that id equals the loop over the remaining ids — no dispatch, no result
entry, no count, and the store is passed through unchanged. -/
theorem c5_skip_processed (H : Registry) (now elapsedMs : Nat) (st : Store)
    (eid : Nat) (rest : List Nat) (ev : Event)
    (hfind : get_event_by_id st eid = some ev)
    (hp : ev.is_processed = true) :
    processSpecificLoop H now elapsedMs false (eid :: rest) st =
    processSpecificLoop H now elapsedMs false rest st := by
  conv_lhs => unfold processSpecificLoop
  rw [hfind]
  simp [hp]

/-- C5 witness: running process-specific over just the already-processed
event id 7 dispatches nothing, reports no results or counts, and leaves
the store unchanged. -/
theorem c5_skip_processed_witness :
    processSpecificLoop defaultHandlers 1000 5 false [7] stDone =
      ⟨[], 0, 0, stDone⟩ := by
  rw [c5_skip_processed defaultHandlers 1000 5 stDone 7 [] evDone rfl rfl]
  rfl

/-- Helper: in the process_specific_events loop, every emitted result is
counted exactly once as a success or a failure. -/
theorem specLoop_results_length (H : Registry) (now elapsedMs : Nat)
    (force : Bool) (ids : List Nat) : ∀ st : Store,
    (processSpecificLoop H now elapsedMs force ids st).results.length =
      (processSpecificLoop H now elapsedMs force ids st).successful +
      (processSpecificLoop H now elapsedMs force ids st).failed := by
  induction ids with
  | nil => intro st; rfl
  | cons eid rest ih =>
    intro st
    unfold processSpecificLoop
    cases hfind : get_event_by_id st eid with
    | none =>
      simp only [List.length_cons, ih st]
      omega
    | some ev =>
      by_cases hskip : (ev.is_processed && !force) = true
      · simp only [hskip, if_true]
        exact ih st
      · simp only [hskip, if_false]
        have := ih (processEventWith H now elapsedMs ev st).2
        by_cases hs : (processEventWith H now elapsedMs ev st).1.success <;>
          simp [hs, this] <;> omega

/-- C10: process_specific_events reports total_events equal to the
length of the requested id list, while every emitted result is counted
as success or failure (so skipped ids inflate total above
successful + failed); concretely, the single already-processed id 7
gives total = 1 with no results and zero counts. -/
theorem c10_total_is_request_length (H : Registry)
    (now elapsedMs batchMs : Nat) (ids : List Nat) (force : Bool)
    (st : Store) :
    (process_specific_events H now elapsedMs batchMs ids force st).1.total_events
      = ids.length ∧
    (process_specific_events H now elapsedMs batchMs ids force st).1.results.length
      = (process_specific_events H now elapsedMs batchMs ids force st).1.successful
        + (process_specific_events H now elapsedMs batchMs ids force st).1.failed ∧
    (process_specific_events defaultHandlers 1000 5 9 [7] false stDone).1 =
      ⟨1, 0, 0, 9, []⟩ := by
  refine ⟨rfl, ?_, by decide⟩
  exact specLoop_results_length H now elapsedMs force ids st

/-- C6: the status tracker sets is_processed = true, processed_at = now
and clears processing_error on success; sets is_processed = false and
processing_error = error (leaving processed_at untouched) on failure;
and both writes are best-effort — a persistence failure is swallowed
(the store is simply unchanged) and the computed processing result is
independent of whether persistence works. -/
theorem c6_status_tracker (st : Store) (eid now : Nat) (err : String)
    (e : Event) :
    (st.persistOk = true → e ∈ st.events → e.id = eid →
      { e with
          is_processed := true,
          processed_at := some now,
          processing_error := none } ∈
        (mark_event_processed st eid now).events) ∧
    (st.persistOk = true → e ∈ st.events → e.id = eid →
      { e with is_processed := false, processing_error := some err } ∈
        (mark_event_error st eid err).events) ∧
    (st.persistOk = false →
      mark_event_processed st eid now = st ∧ mark_event_error st eid err = st) ∧
    (∀ (H : Registry) (now2 elapsedMs : Nat) (ev : Event) (b b2 : Bool),
      (processEventWith H now2 elapsedMs ev ⟨st.events, b⟩).1 =
      (processEventWith H now2 elapsedMs ev ⟨st.events, b2⟩).1) := by
  refine ⟨?_, ?_, ?_, ?_⟩
  · intro hp he hid
    rw [mark_event_processed_events st eid now hp]
    refine List.mem_map.mpr ⟨e, he, ?_⟩
    rw [if_pos hid]
  · intro hp he hid
    rw [mark_event_error_events st eid err hp]
    refine List.mem_map.mpr ⟨e, he, ?_⟩
    rw [if_pos hid]
  · intro hp
    constructor
    · unfold mark_event_processed
      rw [hp]
      rfl
    · unfold mark_event_error
      rw [hp]
      rfl
  · intro H now2 elapsedMs ev b b2
    cases hH : H ev.event_type with
    | none => simp [processEventWith, hH]
    | some h => cases hh : h ev <;> simp [processEventWith, hH, hh]

/-- C6 witness: the tracker writes evaluated on the concrete one-event
store, in both the persisting and the non-persisting situation. -/
theorem c6_status_tracker_witness :
    ({ evPump with
        is_processed := true,
        processed_at := some 777,
        processing_error := none } ∈ (mark_event_processed stPump 1 777).events) ∧
    ({ evPump with is_processed := false, processing_error := some "x" } ∈
      (mark_event_error stPump 1 "x").events) ∧
    (mark_event_processed ⟨[evPump], false⟩ 1 777 = ⟨[evPump], false⟩) ∧
    ((processEventWith defaultHandlers 1 2 evPump ⟨[evPump], false⟩).1 =
      (processEventWith defaultHandlers 1 2 evPump ⟨[evPump], true⟩).1) := by
  have h1 := c6_status_tracker stPump 1 777 "x" evPump
  have h2 := c6_status_tracker ⟨[evPump], false⟩ 1 777 "x" evPump
  exact ⟨h1.1 rfl (by decide) rfl, h1.2.1 rfl (by decide) rfl,
         (h2.2.2.1 rfl).1, h2.2.2.2 defaultHandlers 1 2 evPump false true⟩

/-- Helper: membership through the ascending insertion step. -/
theorem mem_insertAscByNumber (e a : Event) (l : List Event) :
    a ∈ insertAscByNumber e l ↔ a = e ∨ a ∈ l := by
  induction l with
  | nil => simp [insertAscByNumber]
  | cons x xs ih =>
    unfold insertAscByNumber
    by_cases hle : e.event_number ≤ x.event_number
    · simp [hle]
    · simp only [hle, if_false, List.mem_cons, ih]
      tauto

/-- Helper: membership through the ascending sort. -/
theorem mem_sortAscByNumber (a : Event) (l : List Event) :
    a ∈ sortAscByNumber l ↔ a ∈ l := by
  induction l with
  | nil => simp [sortAscByNumber]
  | cons x xs ih =>
    unfold sortAscByNumber
    rw [mem_insertAscByNumber]
    simp [ih]

/-- Helper: the ascending insertion step preserves length. -/
theorem length_insertAscByNumber (e : Event) (l : List Event) :
    (insertAscByNumber e l).length = l.length + 1 := by
  induction l with
  | nil => rfl
  | cons x xs ih =>
    unfold insertAscByNumber
    by_cases hle : e.event_number ≤ x.event_number
    · simp [hle]
    · simp [hle, ih]

/-- Helper: the ascending sort preserves length. -/
theorem length_sortAscByNumber (l : List Event) :
    (sortAscByNumber l).length = l.length := by
  induction l with
  | nil => rfl
  | cons x xs ih =>
    unfold sortAscByNumber
    rw [length_insertAscByNumber, ih]
    rfl

/-- Helper: the ascending insertion step preserves sortedness. -/
theorem pairwise_insertAscByNumber (e : Event) (l : List Event)
    (h : l.Pairwise (fun a b => a.event_number ≤ b.event_number)) :
    (insertAscByNumber e l).Pairwise
      (fun a b => a.event_number ≤ b.event_number) := by
  induction l with
  | nil => simp [insertAscByNumber]
  | cons x xs ih =>
    rcases List.pairwise_cons.mp h with ⟨hx, hxs⟩
    unfold insertAscByNumber
    by_cases hle : e.event_number ≤ x.event_number
    · rw [if_pos hle]
      refine List.pairwise_cons.mpr ⟨?_, h⟩
      intro b hb
      rcases List.mem_cons.mp hb with rfl | hb
      · exact hle
      · exact Nat.le_trans hle (hx b hb)
    · rw [if_neg hle]
      refine List.pairwise_cons.mpr ⟨?_, ih hxs⟩
      intro b hb
      rcases (mem_insertAscByNumber e b xs).mp hb with rfl | hb
      · exact Nat.le_of_not_le hle
      · exact hx b hb

/-- Helper: the ascending sort produces a list sorted by
event_number. -/
theorem pairwise_sortAscByNumber (l : List Event) :
    (sortAscByNumber l).Pairwise
      (fun a b => a.event_number ≤ b.event_number) := by
  induction l with
  | nil => simp [sortAscByNumber]
  | cons x xs ih => exact pairwise_insertAscByNumber x (sortAscByNumber xs) ih

/-- Helper: results of the batch loop line up one-to-one, in order,
with the fetched events. -/
theorem runBatchLoop_map_id (H : Registry) (now elapsedMs : Nat)
    (evs : List Event) : ∀ st : Store,
    (runBatchLoop H now elapsedMs evs st).results.map (fun r => r.event_id) =
      evs.map (fun e => e.id) := by
  induction evs with
  | nil => intro st; rfl
  | cons ev rest ih =>
    intro st
    unfold runBatchLoop
    simp only [List.map_cons]
    rw [processEventWith_event_id, ih]

/-- Helper: the counters accumulated by the batch loop are the counts of
successful and failed results. -/
theorem runBatchLoop_counts (H : Registry) (now elapsedMs : Nat)
    (evs : List Event) : ∀ st : Store,
    (runBatchLoop H now elapsedMs evs st).successful =
      (runBatchLoop H now elapsedMs evs st).results.countP (fun r => r.success) ∧
    (runBatchLoop H now elapsedMs evs st).failed =
      (runBatchLoop H now elapsedMs evs st).results.countP (fun r => !r.success) := by
  induction evs with
  | nil => intro st; exact ⟨rfl, rfl⟩
  | cons ev rest ih =>
    intro st
    unfold runBatchLoop
    rcases ih (processEventWith H now elapsedMs ev st).2 with ⟨ihs, ihf⟩
    by_cases hs : (processEventWith H now elapsedMs ev st).1.success <;>
      simp [List.countP_cons, hs, ihs, ihf, Nat.add_comm]

/-- Helper: with working persistence and an all-successful batch, every
event that was either already processed or among the batch's events
ends the loop processed. -/
theorem runBatchLoop_all_success (H : Registry) (now elapsedMs : Nat)
    (evs : List Event) : ∀ st : Store,
    st.persistOk = true →
    (∀ r ∈ (runBatchLoop H now elapsedMs evs st).results, r.success = true) →
    (∀ e ∈ st.events, e.is_processed = true ∨ e.id ∈ evs.map (fun x => x.id)) →
    ∀ e2 ∈ (runBatchLoop H now elapsedMs evs st).store.events,
      e2.is_processed = true := by
  induction evs with
  | nil =>
    intro st _ _ hinv e2 he2
    exact (hinv e2 he2).resolve_right (by simp)
  | cons ev rest ih =>
    intro st hp hr hinv
    have hresults : (runBatchLoop H now elapsedMs (ev :: rest) st).results =
        (processEventWith H now elapsedMs ev st).1 ::
        (runBatchLoop H now elapsedMs rest
          (processEventWith H now elapsedMs ev st).2).results := rfl
    have hstore : (runBatchLoop H now elapsedMs (ev :: rest) st).store =
        (runBatchLoop H now elapsedMs rest
          (processEventWith H now elapsedMs ev st).2).store := rfl
    have hmemr : (processEventWith H now elapsedMs ev st).1 ∈
        (runBatchLoop H now elapsedMs (ev :: rest) st).results := by
      rw [hresults]
      exact List.mem_cons_self _ _
    have hsucc := hr _ hmemr
    have hstep := processEventWith_success_store H now elapsedMs ev st hsucc
    rw [hstore]
    have hp1 : (processEventWith H now elapsedMs ev st).2.persistOk = true := by
      rw [hstep, mark_event_processed_persist]
      exact hp
    have hr1 : ∀ r ∈ (runBatchLoop H now elapsedMs rest
        (processEventWith H now elapsedMs ev st).2).results, r.success = true := by
      intro r hrmem
      apply hr
      rw [hresults]
      exact List.mem_cons_of_mem _ hrmem
    have hinv1 : ∀ e1 ∈ (processEventWith H now elapsedMs ev st).2.events,
        e1.is_processed = true ∨ e1.id ∈ rest.map (fun x => x.id) := by
      intro e1 he1
      rw [hstep, mark_event_processed_events st ev.id now hp] at he1
      rcases List.mem_map.mp he1 with ⟨e0, he0, rfl⟩
      by_cases hid : e0.id = ev.id
      · left
        rw [if_pos hid]
      · rw [if_neg hid]
        rcases hinv e0 he0 with hdone | hmem
        · exact Or.inl hdone
        · rcases List.mem_map.mp hmem with ⟨x, hx, hxid⟩
          rcases List.mem_cons.mp hx with rfl | hx2
          · exact absurd hxid.symm hid
          · exact Or.inr (List.mem_map.mpr ⟨x, hx2, hxid⟩)
    exact ih (processEventWith H now elapsedMs ev st).2 hp1 hr1 hinv1

/-- C4: the batch fetch returns at most limit events, all unprocessed,
sorted ascending by sequence number; the batch result's total is the
fetch size, its results line up with the fetched events in exactly the
fetched order, and the success and failure counters count the per-event
results; concretely the store holding seq-2 before seq-1 on one
aggregate is processed seq-1 first. -/
theorem c4_batch_order (H : Registry) (now elapsedMs batchMs limit : Nat)
    (st : Store) :
    ((get_unprocessed_events st limit).length ≤ limit) ∧
    (∀ e ∈ get_unprocessed_events st limit, e.is_processed = false) ∧
    ((get_unprocessed_events st limit).Pairwise
      (fun a b => a.event_number ≤ b.event_number)) ∧
    ((process_pending_events H now elapsedMs batchMs limit st).1.total_events =
      (get_unprocessed_events st limit).length) ∧
    ((process_pending_events H now elapsedMs batchMs limit st).1.results.map
        (fun r => r.event_id) =
      (get_unprocessed_events st limit).map (fun e => e.id)) ∧
    ((process_pending_events H now elapsedMs batchMs limit st).1.successful =
      (process_pending_events H now elapsedMs batchMs limit st).1.results.countP
        (fun r => r.success)) ∧
    ((process_pending_events H now elapsedMs batchMs limit st).1.failed =
      (process_pending_events H now elapsedMs batchMs limit st).1.results.countP
        (fun r => !r.success)) ∧
    ((process_pending_events defaultHandlers 1000 5 9 100 stTwo).1.results.map
        (fun r => r.event_id) = [12, 11]) := by
  refine ⟨?_, ?_, ?_, ?_, ?_, ?_, ?_, by decide⟩
  · calc (get_unprocessed_events st limit).length
        ≤ limit ⊓ (sortAscByNumber
            (st.events.filter (fun e => !e.is_processed))).length := by
          rw [get_unprocessed_events]
          rw [List.length_take]
      _ ≤ limit := Nat.min_le_left _ _
  · intro e he
    have hmem : e ∈ st.events.filter (fun e => !e.is_processed) := by
      have := List.take_subset limit
        (sortAscByNumber (st.events.filter (fun e => !e.is_processed))) he
      exact (mem_sortAscByNumber e _).mp this
    have := (List.mem_filter.mp hmem).2
    simpa using this
  · exact (pairwise_sortAscByNumber
      (st.events.filter (fun e => !e.is_processed))).sublist
      (List.take_sublist limit _)
  · unfold process_pending_events
    cases hfe : (get_unprocessed_events st limit).isEmpty
    · simp only [hfe, Bool.false_eq_true, if_false]
    · simp only [hfe, if_true]
      rw [List.isEmpty_iff.mp hfe]
      rfl
  · unfold process_pending_events
    cases hfe : (get_unprocessed_events st limit).isEmpty
    · simp only [hfe, Bool.false_eq_true, if_false]
      exact runBatchLoop_map_id H now elapsedMs _ st
    · simp only [hfe, if_true]
      rw [List.isEmpty_iff.mp hfe]
      rfl
  · unfold process_pending_events
    cases hfe : (get_unprocessed_events st limit).isEmpty
    · simp only [hfe, Bool.false_eq_true, if_false]
      exact (runBatchLoop_counts H now elapsedMs _ st).1
    · simp only [hfe, if_true]
      rfl
  · unfold process_pending_events
    cases hfe : (get_unprocessed_events st limit).isEmpty
    · simp only [hfe, Bool.false_eq_true, if_false]
      exact (runBatchLoop_counts H now elapsedMs _ st).2
    · simp only [hfe, if_true]
      rfl

/-- C4 witness: the seq-1 event is among the fetch of the two-event
store and the concrete batch dispatches seq 1 before seq 2. -/
theorem c4_batch_order_witness :
    evSeq1.is_processed = false ∧
    ((process_pending_events defaultHandlers 1000 5 9 100 stTwo).1.results.map
        (fun r => r.event_id) = [12, 11]) := by
  have h := c4_batch_order defaultHandlers 1000 5 9 100 stTwo
  exact ⟨h.2.1 evSeq1 (by decide), h.2.2.2.2.2.2.2⟩

/-- C7 counterexample: on a store holding one unhandled-type event the
first batch run leaves the store unchanged (the event stays
unprocessed), so a second run with no new events posted reports
total = 1, not 0 — refuting the claim for this store. -/
theorem c7_counterexample :
    (process_pending_events defaultHandlers 1000 5 9 100 stWidget).2 =
      stWidget ∧
    (process_pending_events defaultHandlers 2000 6 7 100
      ((process_pending_events defaultHandlers 1000 5 9 100 stWidget).2)
      ).1.total_events = 1 := by
  constructor
  · decide
  · decide

/-- C7 (amended): when the fetch yields zero events, run_batch returns
the zero-valued result immediately without invoking the dispatcher; and
a second run yields total = 0 provided persistence works, the first
fetch covered every unprocessed event (their count is at most limit),
and every result of the first run succeeded — a failed or unhandled
event stays unprocessed and is fetched again. -/
theorem c7_amended (H : Registry) (now elapsedMs batchMs limit : Nat)
    (now2 elapsedMs2 batchMs2 limit2 : Nat) (st : Store) :
    (get_unprocessed_events st limit = [] →
      process_pending_events H now elapsedMs batchMs limit st =
        (⟨0, 0, 0, 0, []⟩, st)) ∧
    (st.persistOk = true →
      (st.events.filter (fun e => !e.is_processed)).length ≤ limit →
      (∀ r ∈ (process_pending_events H now elapsedMs batchMs limit st).1.results,
        r.success = true) →
      (process_pending_events H now2 elapsedMs2 batchMs2 limit2
        ((process_pending_events H now elapsedMs batchMs limit st).2)
        ).1.total_events = 0) := by
  constructor
  · intro h
    simp [process_pending_events, h]
  · intro hp hlen hr
    have hfull : get_unprocessed_events st limit =
        sortAscByNumber (st.events.filter (fun e => !e.is_processed)) := by
      unfold get_unprocessed_events
      apply List.take_of_length_le
      rw [length_sortAscByNumber]
      exact hlen
    cases hfe : (get_unprocessed_events st limit).isEmpty
    case true =>
      have hnil := List.isEmpty_iff.mp hfe
      have hfirst : process_pending_events H now elapsedMs batchMs limit st =
          (⟨0, 0, 0, 0, []⟩, st) := by
        simp [process_pending_events, hnil]
      rw [hfirst]
      have hfilnil : st.events.filter (fun e => !e.is_processed) = [] := by
        apply List.eq_nil_of_length_eq_zero
        rw [← length_sortAscByNumber, ← hfull, hnil]
        rfl
      have h2 : get_unprocessed_events st limit2 = [] := by
        unfold get_unprocessed_events
        rw [hfilnil]
        simp [sortAscByNumber]
      simp [process_pending_events, h2]
    case false =>
      have hsnd : (process_pending_events H now elapsedMs batchMs limit st).2 =
          (runBatchLoop H now elapsedMs (get_unprocessed_events st limit) st).store := by
        simp only [process_pending_events, hfe, Bool.false_eq_true, if_false]
      have hres : (process_pending_events H now elapsedMs batchMs limit st).1.results =
          (runBatchLoop H now elapsedMs (get_unprocessed_events st limit) st).results := by
        simp only [process_pending_events, hfe, Bool.false_eq_true, if_false]
      have hinv : ∀ e ∈ st.events, e.is_processed = true ∨
          e.id ∈ (get_unprocessed_events st limit).map (fun x => x.id) := by
        intro e he
        by_cases hproc : e.is_processed = true
        · exact Or.inl hproc
        · right
          have hmemf : e ∈ st.events.filter (fun x => !x.is_processed) :=
            List.mem_filter.mpr ⟨he, by simp [hproc]⟩
          have hmemu : e ∈ get_unprocessed_events st limit := by
            rw [hfull]
            exact (mem_sortAscByNumber e _).mpr hmemf
          exact List.mem_map.mpr ⟨e, hmemu, rfl⟩
      have hall := runBatchLoop_all_success H now elapsedMs
        (get_unprocessed_events st limit) st hp
        (by rw [← hres]; exact hr) hinv
      rw [hsnd]
      have hfilnil2 : (runBatchLoop H now elapsedMs
          (get_unprocessed_events st limit) st).store.events.filter
          (fun e => !e.is_processed) = [] := by
        apply List.filter_eq_nil_iff.mpr
        intro a ha
        simp [hall a ha]
      have h2 : ∀ st2 : Store,
          st2.events.filter (fun e => !e.is_processed) = [] →
          get_unprocessed_events st2 limit2 = [] := by
        intro st2 hfil
        unfold get_unprocessed_events
        rw [hfil]
        simp [sortAscByNumber]
      simp [process_pending_events, h2 _ hfilnil2]

/-- C7 witness: on the empty store the batch returns the zero result at
once, and after one all-successful run over the PUMP-001 store a second
run reports total = 0. -/
theorem c7_amended_witness :
    process_pending_events defaultHandlers 1000 5 9 100 (⟨[], true⟩ : Store) =
      (⟨0, 0, 0, 0, []⟩, (⟨[], true⟩ : Store)) ∧
    (process_pending_events defaultHandlers 2000 6 7 50
      ((process_pending_events defaultHandlers 1000 5 9 100 stPump).2)
      ).1.total_events = 0 := by
  constructor
  · exact (c7_amended defaultHandlers 1000 5 9 100 2000 6 7 50 ⟨[], true⟩).1 rfl
  · exact (c7_amended defaultHandlers 1000 5 9 100 2000 6 7 50 stPump).2 rfl
      (by decide) (by decide)

/-- Helper: a list's length splits into the counts of a predicate and
its negation. -/
theorem length_countP_split (p : Event → Bool) (l : List Event) :
    l.length = l.countP p + l.countP (fun e => !p e) := by
  induction l with
  | nil => rfl
  | cons e t ih =>
    by_cases hp : p e <;> simp [List.countP_cons, hp, ih] <;> omega

/-- Helper: membership through the descending insertion step. -/
theorem mem_insertDescByNumber (e a : Event) (l : List Event) :
    a ∈ insertDescByNumber e l ↔ a = e ∨ a ∈ l := by
  induction l with
  | nil => simp [insertDescByNumber]
  | cons x xs ih =>
    unfold insertDescByNumber
    by_cases hle : x.event_number ≤ e.event_number
    · simp [hle]
    · simp only [hle, if_false, List.mem_cons, ih]
      tauto

/-- Helper: membership through the descending sort. -/
theorem mem_sortDescByNumber (a : Event) (l : List Event) :
    a ∈ sortDescByNumber l ↔ a ∈ l := by
  induction l with
  | nil => simp [sortDescByNumber]
  | cons x xs ih =>
    unfold sortDescByNumber
    rw [mem_insertDescByNumber]
    simp [ih]

/-- Helper: the descending insertion step preserves reverse
sortedness. -/
theorem pairwise_insertDescByNumber (e : Event) (l : List Event)
    (h : l.Pairwise (fun a b => b.event_number ≤ a.event_number)) :
    (insertDescByNumber e l).Pairwise
      (fun a b => b.event_number ≤ a.event_number) := by
  induction l with
  | nil => simp [insertDescByNumber]
  | cons x xs ih =>
    rcases List.pairwise_cons.mp h with ⟨hx, hxs⟩
    unfold insertDescByNumber
    by_cases hle : x.event_number ≤ e.event_number
    · rw [if_pos hle]
      refine List.pairwise_cons.mpr ⟨?_, h⟩
      intro b hb
      rcases List.mem_cons.mp hb with rfl | hb
      · exact hle
      · exact Nat.le_trans (hx b hb) hle
    · rw [if_neg hle]
      refine List.pairwise_cons.mpr ⟨?_, ih hxs⟩
      intro b hb
      rcases (mem_insertDescByNumber e b xs).mp hb with rfl | hb
      · exact Nat.le_of_not_le hle
      · exact hx b hb

/-- Helper: the descending sort produces a list reverse-sorted by
event_number. -/
theorem pairwise_sortDescByNumber (l : List Event) :
    (sortDescByNumber l).Pairwise
      (fun a b => b.event_number ≤ a.event_number) := by
  induction l with
  | nil => simp [sortDescByNumber]
  | cons x xs ih => exact pairwise_insertDescByNumber x (sortDescByNumber xs) ih

/-- Helper: taking one element does not change the head. -/
theorem head?_take_one (l : List Event) : (l.take 1).head? = l.head? := by
  cases l <;> rfl

/-- Helper: bumping one key in the counts dict adds one to that key's
count and nothing else. -/
theorem lookupCount_bumpCount (s t : String) (acc : List (String × Nat)) :
    lookupCount (bumpCount s acc) t =
      lookupCount acc t + (if s = t then 1 else 0) := by
  induction acc with
  | nil =>
    by_cases hst : s = t
    · simp [bumpCount, lookupCount, hst]
    · simp [bumpCount, lookupCount, hst]
  | cons kv rest ih =>
    rcases kv with ⟨k, n⟩
    unfold bumpCount
    by_cases hks : k = s
    · subst hks
      by_cases hkt : k = t
      · subst hkt
        simp [lookupCount]
      · simp only [if_pos rfl]
        simp [lookupCount, hkt]
    · rw [if_neg hks]
      by_cases hkt : k = t
      · subst hkt
        simp [lookupCount]
        exact Ne.symm hks
      · simp only [lookupCount, List.find?]
        have hkt2 : (decide (k = t)) = false := by simp [hkt]
        simp only [hkt2]
        exact ih

/-- Helper: the counts dict built by the stats fold counts each
event_type exactly. -/
theorem lookupCount_foldl (l : List Event) : ∀ (acc : List (String × Nat))
    (t : String),
    lookupCount (l.foldl (fun a e => bumpCount e.event_type a) acc) t =
      lookupCount acc t + l.countP (fun e => e.event_type == t) := by
  induction l with
  | nil => intro acc t; rfl
  | cons e rest ih =>
    intro acc t
    simp only [List.foldl_cons]
    rw [ih (bumpCount e.event_type acc) t, lookupCount_bumpCount]
    rw [List.countP_cons]
    by_cases het : e.event_type = t
    · simp [het]
      omega
    · simp [het]

/-- Helper: the per-type breakdown of get_event_stats counts each
event_type's occurrences. -/
theorem lookupCount_buildTypeCounts (l : List Event) (t : String) :
    lookupCount (buildTypeCounts l) t = l.countP (fun e => e.event_type == t) := by
  unfold buildTypeCounts
  rw [lookupCount_foldl l [] t]
  simp [lookupCount]

/-- C8 counterexample: on a store holding one failed event (unprocessed
with a stored processing_error) the stats report events_failed = 0 even
though the store contains one failed event. -/
theorem c8_counterexample :
    (get_stats stFailed).events_failed = 0 ∧
    specFailedEventCount stFailed = 1 ∧
    (get_stats stFailed).events_failed ≠ specFailedEventCount stFailed := by
  refine ⟨rfl, rfl, ?_⟩
  decide

/-- C8 (amended): the stats operation returns the count of processed
events, the count of pending (unprocessed) events, the success rate as
processed divided by total times 100 (0 for an empty store), a
per-event-type breakdown counting every stored event, and the
processed_at timestamp of the processed event with the greatest
sequence number (none when no event is processed) — but events_failed
is the hard-coded constant 0, not the count of failed events. -/
theorem c8_stats (st : Store) :
    ((get_stats st).total_events_processed =
      st.events.countP (fun e => e.is_processed)) ∧
    ((get_stats st).events_pending =
      st.events.countP (fun e => !e.is_processed)) ∧
    ((get_stats st).events_failed = 0) ∧
    ((get_stats st).success_rate =
      if 0 < st.events.length then
        (st.events.countP (fun e => e.is_processed) : ℚ) /
          (st.events.length : ℚ) * 100
      else 0) ∧
    (∀ t, lookupCount (get_stats st).event_type_breakdown t =
      st.events.countP (fun e => e.event_type == t)) ∧
    (((get_stats st).last_processed_at = none ∧
        ∀ e ∈ st.events, e.is_processed = false) ∨
      (∃ e ∈ st.events, e.is_processed = true ∧
        (get_stats st).last_processed_at = e.processed_at ∧
        ∀ e2 ∈ st.events, e2.is_processed = true →
          e2.event_number ≤ e.event_number)) := by
  have hproc : st.events.length - st.events.countP (fun e => !e.is_processed) =
      st.events.countP (fun e => e.is_processed) := by
    have h1 := length_countP_split (fun e => e.is_processed) st.events
    have h2 : st.events.countP (fun e => !!e.is_processed) =
        st.events.countP (fun e => e.is_processed) := by
      apply List.countP_congr
      intro e _
      simp
    omega
  refine ⟨?_, rfl, rfl, ?_, ?_, ?_⟩
  · exact hproc
  · show (if 0 < st.events.length then
        ((st.events.length - st.events.countP (fun e => !e.is_processed) : Nat) : ℚ) /
          (st.events.length : ℚ) * 100
      else 0) = _
    rw [hproc]
  · intro t
    exact lookupCount_buildTypeCounts st.events t
  · cases hsort : sortDescByNumber (st.events.filter (fun e => e.is_processed)) with
    | nil =>
      left
      constructor
      · show (match (sortDescByNumber
            (st.events.filter (fun e => e.is_processed))).take 1 |>.head? with
          | some e => e.processed_at
          | none => none) = none
        rw [hsort]
        rfl
      · intro e he
        by_cases hp : e.is_processed = true
        · exfalso
          have hmem : e ∈ st.events.filter (fun x => x.is_processed) :=
            List.mem_filter.mpr ⟨he, hp⟩
          rw [← mem_sortDescByNumber, hsort] at hmem
          exact absurd hmem (List.not_mem_nil e)
        · simpa using hp
    | cons x xs =>
      right
      have hxmem : x ∈ st.events.filter (fun e => e.is_processed) := by
        rw [← mem_sortDescByNumber, hsort]
        exact List.mem_cons_self _ _
      refine ⟨x, (List.mem_filter.mp hxmem).1, (List.mem_filter.mp hxmem).2, ?_, ?_⟩
      · show (match (sortDescByNumber
            (st.events.filter (fun e => e.is_processed))).take 1 |>.head? with
          | some e => e.processed_at
          | none => none) = x.processed_at
        rw [head?_take_one, hsort]
        rfl
      · intro e2 he2 hp2
        have hmem2 : e2 ∈ sortDescByNumber
            (st.events.filter (fun e => e.is_processed)) := by
          rw [mem_sortDescByNumber]
          exact List.mem_filter.mpr ⟨he2, hp2⟩
        rw [hsort] at hmem2
        rcases List.mem_cons.mp hmem2 with rfl | hmem2
        · exact Nat.le_refl _
        · have hpw := pairwise_sortDescByNumber
            (st.events.filter (fun e => e.is_processed))
          rw [hsort] at hpw
          exact (List.pairwise_cons.mp hpw).1 e2 hmem2

/-- C8 witness: the stats of the one-event PUMP-001 store, extracted
through the amended theorem at that concrete store. -/
theorem c8_stats_witness :
    (get_stats stPump).events_failed = 0 ∧
    (get_stats stPump).events_pending = 1 ∧
    lookupCount (get_stats stPump).event_type_breakdown "product.created" = 1 := by
  have h := c8_stats stPump
  refine ⟨h.2.2.1, ?_, ?_⟩
  · rw [h.2.1]
    decide
  · rw [h.2.2.2.2.1 "product.created"]
    decide

/-- Helper: splitting never yields an empty list of parts. -/
theorem splitOnDot_ne_nil (l : List Char) : splitOnDot l ≠ [] := by
  cases l with
  | nil => simp [splitOnDot]
  | cons c rest =>
    unfold splitOnDot
    cases h : splitOnDot rest with
    | nil => simp
    | cons g gs => by_cases hc : c = '.' <;> simp [hc]

/-- Helper: the number of parts is the dot count plus one. -/
theorem length_splitOnDot (l : List Char) :
    (splitOnDot l).length = l.count '.' + 1 := by
  induction l with
  | nil => rfl
  | cons c rest ih =>
    cases h : splitOnDot rest with
    | nil => exact absurd h (splitOnDot_ne_nil rest)
    | cons g gs =>
      have hstep : splitOnDot (c :: rest) =
          if c = '.' then [] :: g :: gs else (c :: g) :: gs := by
        unfold splitOnDot
        rw [h]
      rw [h] at ih
      rw [hstep]
      by_cases hc : c = '.'
      · subst hc
        simp [List.count_cons] at ih ⊢
        omega
      · simp [hc, List.count_cons] at ih ⊢
        omega

/-- Helper: a one-part split means the string had no dot. -/
theorem splitOnDot_single (l : List Char) : ∀ a : List Char,
    splitOnDot l = [a] → l = a := by
  induction l with
  | nil =>
    intro a h
    simpa [splitOnDot] using h
  | cons c rest ih =>
    intro a h
    cases hr : splitOnDot rest with
    | nil => exact absurd hr (splitOnDot_ne_nil rest)
    | cons g gs =>
      have hstep : splitOnDot (c :: rest) =
          if c = '.' then [] :: g :: gs else (c :: g) :: gs := by
        unfold splitOnDot
        rw [hr]
      rw [hstep] at h
      by_cases hc : c = '.'
      · rw [if_pos hc] at h
        simp at h
      · rw [if_neg hc] at h
        simp only [List.cons.injEq] at h
        rcases h with ⟨ha, hgs⟩
        subst hgs
        rw [← ha, ih g hr]

/-- Helper: a two-part split decomposes the string around its one
dot. -/
theorem splitOnDot_pair (l : List Char) : ∀ a b : List Char,
    splitOnDot l = [a, b] → l = a ++ '.' :: b := by
  induction l with
  | nil =>
    intro a b h
    simp [splitOnDot] at h
  | cons c rest ih =>
    intro a b h
    cases hr : splitOnDot rest with
    | nil => exact absurd hr (splitOnDot_ne_nil rest)
    | cons g gs =>
      have hstep : splitOnDot (c :: rest) =
          if c = '.' then [] :: g :: gs else (c :: g) :: gs := by
        unfold splitOnDot
        rw [hr]
      rw [hstep] at h
      by_cases hc : c = '.'
      · rw [if_pos hc] at h
        subst hc
        simp only [List.cons.injEq] at h
        rcases h with ⟨ha, hg, hgs⟩
        subst hgs
        have hsingle := splitOnDot_single rest g hr
        rw [← ha, hsingle, hg]
        rfl
      · rw [if_neg hc] at h
        simp only [List.cons.injEq] at h
        rcases h with ⟨ha, hgs⟩
        subst hgs
        rw [← ha, ih g b hr]
        rfl

/-- Helper: a spec-acceptable event_type has length at least three,
contains a dot, and splits into exactly two parts. -/
theorem specEventTypeOk_facts (v : String) (h : specEventTypeOk v = true) :
    3 ≤ v.length ∧ v.toList.contains '.' = true ∧
      (splitOnDot v.toList).length = 2 := by
  unfold specEventTypeOk at h
  rw [Bool.and_eq_true] at h
  rcases h with ⟨hcount, hall⟩
  have hc : v.toList.count '.' = 1 := by simpa using hcount
  have hlen2 : (splitOnDot v.toList).length = 2 := by
    rw [length_splitOnDot, hc]
  obtain ⟨a, b, hab⟩ : ∃ a b, splitOnDot v.toList = [a, b] := by
    cases hsp : splitOnDot v.toList with
    | nil => exact absurd hsp (splitOnDot_ne_nil _)
    | cons x xs =>
      cases xs with
      | nil => rw [hsp] at hlen2; simp at hlen2
      | cons y ys =>
        cases ys with
        | nil => exact ⟨x, y, rfl⟩
        | cons z zs => rw [hsp] at hlen2; simp at hlen2
  have hll := splitOnDot_pair v.toList a b hab
  have hane : a ≠ [] := by
    intro hnil
    rw [hab, hnil] at hall
    simp at hall
  have hbne : b ≠ [] := by
    intro hnil
    rw [hab, hnil] at hall
    simp at hall
  refine ⟨?_, ?_, hlen2⟩
  · have hlen : v.length = v.toList.length := rfl
    rw [hlen, hll, List.length_append]
    cases a with
    | nil => exact absurd rfl hane
    | cons x xs =>
      cases b with
      | nil => exact absurd rfl hbne
      | cons y ys => simp; omega
  · have hmem : '.' ∈ v.toList := List.count_pos_iff.mp (by omega)
    simpa using hmem

/-- Helper: a character-list prefix test succeeding bounds the length
from below. -/
theorem startsWithChars_length (p : List Char) : ∀ l : List Char,
    startsWithChars p l = true → p.length ≤ l.length := by
  induction p with
  | nil => intro l _; simp
  | cons a ps ih =>
    intro l h
    cases l with
    | nil => simp [startsWithChars] at h
    | cons c cs =>
      unfold startsWithChars at h
      rw [Bool.and_eq_true] at h
      have := ih cs h.2
      simp
      omega

/-- Helper: a value passing the created_by prefix test is non-empty. -/
theorem createdByPrefixOk_length (v : String)
    (h : createdByPrefixOk v = true) : 1 ≤ v.length := by
  unfold createdByPrefixOk at h
  simp only [Bool.or_eq_true] at h
  rcases h with (ha | hb) | hc
  · have := startsWithChars_length _ _ ha
    simp at this
    omega
  · have := startsWithChars_length _ _ hb
    simp at this
    omega
  · have := startsWithChars_length _ _ hc
    simp at this
    omega

/-- C9 counterexample: a 101-character event_type with exactly one dot
and two non-empty parts satisfies the claim's acceptance condition but
is rejected (pydantic max_length = 100 runs before the validator), so
acceptance is not equivalent to the dotted-shape condition alone. -/
theorem c9_counterexample :
    specEventTypeOk longDotted = true ∧
    longDotted.length = 101 ∧
    exceptOk (accept_event_type longDotted) = false := by
  refine ⟨by decide, by decide, by decide⟩

/-- C9 (amended): an event_type is accepted iff it contains exactly one
dot separating two non-empty parts AND its length is at most 100 (the
min_length = 3 bound is implied by the dotted shape); an accepted value
is normalized to lowercase; and a created_by is accepted iff it starts
with user:, agent:, or system AND its length is at most 100. -/
theorem c9_validation (v : String) :
    (exceptOk (accept_event_type v) =
      (specEventTypeOk v && decide (v.length ≤ 100))) ∧
    (∀ w, accept_event_type v = Except.ok w → w = lowerString v) ∧
    (exceptOk (accept_created_by v) =
      (createdByPrefixOk v && decide (v.length ≤ 100))) := by
  refine ⟨?_, ?_, ?_⟩
  · by_cases h3 : v.length < 3
    · cases hbool : specEventTypeOk v with
      | true =>
        have hlen := (specEventTypeOk_facts v hbool).1
        exact absurd hlen (by omega)
      | false =>
        have hlhs : exceptOk (accept_event_type v) = false := by
          unfold accept_event_type
          rw [if_pos h3]
          rfl
        rw [hlhs]
        rfl
    · by_cases h100 : 100 < v.length
      · have hlhs : exceptOk (accept_event_type v) = false := by
          unfold accept_event_type
          rw [if_neg h3, if_pos h100]
          rfl
        have hdec : decide (v.length ≤ 100) = false := by
          simp
          omega
        rw [hlhs, hdec, Bool.and_false]
      · have hle : v.length ≤ 100 := Nat.not_lt.mp h100
        have hdec : decide (v.length ≤ 100) = true := by simp [hle]
        have hacc : accept_event_type v = validate_event_type v := by
          unfold accept_event_type
          rw [if_neg h3, if_neg h100]
        rw [hacc, hdec, Bool.and_true]
        cases hdot : v.toList.contains '.' with
        | false =>
          have hlhs : exceptOk (validate_event_type v) = false := by
            unfold validate_event_type
            rw [if_pos (show (!(v.toList.contains '.')) = true by
              rw [hdot]; rfl)]
            rfl
          cases hbool : specEventTypeOk v with
          | true =>
            have := (specEventTypeOk_facts v hbool).2.1
            rw [hdot] at this
            cases this
          | false => rw [hlhs]
        | true =>
          have hC1 : ¬((!(v.toList.contains '.')) = true) := by
            rw [hdot]
            simp
          by_cases hp2 : (splitOnDot v.toList).length = 2
          · cases hallp :
                (splitOnDot v.toList).all (fun p => !p.isEmpty) with
            | false =>
              have hlhs : exceptOk (validate_event_type v) = false := by
                unfold validate_event_type
                rw [if_neg hC1,
                  if_neg (show ¬((splitOnDot v.toList).length ≠ 2) by
                    simpa using hp2),
                  if_pos (show (!(splitOnDot v.toList).all
                    (fun p => !p.isEmpty)) = true by rw [hallp]; rfl)]
                rfl
              have hspec : specEventTypeOk v = false := by
                unfold specEventTypeOk
                rw [hallp, Bool.and_false]
              rw [hlhs, hspec]
            | true =>
              have hlhs : exceptOk (validate_event_type v) = true := by
                unfold validate_event_type
                rw [if_neg hC1,
                  if_neg (show ¬((splitOnDot v.toList).length ≠ 2) by
                    simpa using hp2),
                  if_neg (show ¬((!(splitOnDot v.toList).all
                    (fun p => !p.isEmpty)) = true) by rw [hallp]; simp)]
                rfl
              have hcount : v.toList.count '.' = 1 := by
                have := length_splitOnDot v.toList
                omega
              have hspec : specEventTypeOk v = true := by
                unfold specEventTypeOk
                rw [hallp, hcount]
                rfl
              rw [hlhs, hspec]
          · have hlhs : exceptOk (validate_event_type v) = false := by
              unfold validate_event_type
              rw [if_neg hC1, if_pos hp2]
              rfl
            have hcount : v.toList.count '.' ≠ 1 := by
              intro hc
              apply hp2
              rw [length_splitOnDot, hc]
            have hspec : specEventTypeOk v = false := by
              unfold specEventTypeOk
              have hbeq : (v.toList.count '.' == 1) = false := by
                cases hx : v.toList.count '.' == 1 with
                | false => rfl
                | true => exact absurd (by simpa using hx) hcount
              rw [hbeq]
              rfl
            rw [hlhs, hspec]
  · intro w hw
    unfold accept_event_type at hw
    by_cases h3 : v.length < 3
    · rw [if_pos h3] at hw
      cases hw
    · rw [if_neg h3] at hw
      by_cases h100 : 100 < v.length
      · rw [if_pos h100] at hw
        cases hw
      · rw [if_neg h100] at hw
        unfold validate_event_type at hw
        by_cases hC1 : (!(v.toList.contains '.')) = true
        · rw [if_pos hC1] at hw
          cases hw
        · rw [if_neg hC1] at hw
          by_cases hp2 : (splitOnDot v.toList).length ≠ 2
          · rw [if_pos hp2] at hw
            cases hw
          · rw [if_neg hp2] at hw
            by_cases hC3 :
                (!(splitOnDot v.toList).all (fun p => !p.isEmpty)) = true
            · rw [if_pos hC3] at hw
              cases hw
            · rw [if_neg hC3] at hw
              injection hw with hw2
              exact hw2.symm
  · by_cases h1 : v.length < 1
    · cases hbool : createdByPrefixOk v with
      | true =>
        have := createdByPrefixOk_length v hbool
        exact absurd this (by omega)
      | false =>
        have hlhs : exceptOk (accept_created_by v) = false := by
          unfold accept_created_by
          rw [if_pos h1]
          rfl
        rw [hlhs]
        rfl
    · by_cases h100 : 100 < v.length
      · have hlhs : exceptOk (accept_created_by v) = false := by
          unfold accept_created_by
          rw [if_neg h1, if_pos h100]
          rfl
        have hdec : decide (v.length ≤ 100) = false := by
          simp
          omega
        rw [hlhs, hdec, Bool.and_false]
      · have hle : v.length ≤ 100 := Nat.not_lt.mp h100
        have hdec : decide (v.length ≤ 100) = true := by simp [hle]
        have hacc : accept_created_by v = validate_created_by v := by
          unfold accept_created_by
          rw [if_neg h1, if_neg h100]
        rw [hacc, hdec, Bool.and_true]
        cases hpre : createdByPrefixOk v with
        | true =>
          have hlhs : exceptOk (validate_created_by v) = true := by
            unfold validate_created_by
            rw [if_neg (show ¬((!createdByPrefixOk v) = true) by
              rw [hpre]; simp)]
            rfl
          rw [hlhs]
        | false =>
          have hlhs : exceptOk (validate_created_by v) = false := by
            unfold validate_created_by
            rw [if_pos (show (!createdByPrefixOk v) = true by
              rw [hpre]; rfl)]
            rfl
          rw [hlhs]

/-- C9 witness: the concrete event_type Product.Created is accepted and
lowercased to product.created, and the concrete created_by system is
accepted. -/
theorem c9_validation_witness :
    exceptOk (accept_event_type "Product.Created") =
      (specEventTypeOk "Product.Created" &&
        decide (("Product.Created" : String).length ≤ 100)) ∧
    accept_event_type "Product.Created" = Except.ok "product.created" ∧
    exceptOk (accept_created_by "system") =
      (createdByPrefixOk "system" &&
        decide (("system" : String).length ≤ 100)) := by
  have h := c9_validation "Product.Created"
  have h2 := c9_validation "system"
  refine ⟨h.1, ?_, h2.2.2⟩
  have hacc : accept_event_type "Product.Created" =
      Except.ok (lowerString "Product.Created") := by decide
  rw [hacc, ← h.2.1 "product.created" (by decide)]

end Jovey
